import Mathlib

/-!
Shallow embedding of `src/scripts/loader.py` — the robust loader for the 1925
Latvian meteorological text files — together with proofs about the claims of
its specification.

Strings are modelled as `List Char` (`Str`).  Missing values (`NaN` / `NaT` /
`None`) are modelled as `Option.none` or the cell value `Cell.na`.  Python
floats produced by parsing decimal text are modelled exactly as rationals.
A Python exception escaping a function is modelled as `Except.error` carrying
the exception message.
-/

namespace Loader

abbrev Str := List Char

/-- The characters Python's `str.strip()` removes (`string.whitespace`). -/
def pyWhitespaceChars : List Char := [' ', '\t', '\n', '\r', '\x0b', '\x0c']

def isPyWs (c : Char) : Bool := pyWhitespaceChars.contains c

/-- Python `s.lstrip()`. -/
def pyLStrip (s : Str) : Str := s.dropWhile isPyWs

/-- Python `s.rstrip()`. -/
def pyRStrip (s : Str) : Str := (s.reverse.dropWhile isPyWs).reverse

/-- Python `s.strip()`. -/
def pyStrip (s : Str) : Str := pyRStrip (pyLStrip s)

/-- Python `s.startswith(pat)` / list prefix test (matching first on the
pattern so that an empty pattern is a prefix of anything definitionally). -/
def isPrefixB : Str → Str → Bool
  | [], _ => true
  | a :: as, s =>
    match s with
    | [] => false
    | b :: bs => a == b && isPrefixB as bs

/-- Python `pat in s` (substring containment), for a pattern `pat`. -/
def containsSubstr (s pat : Str) : Bool :=
  s.tails.any (fun t => isPrefixB pat t)

/-- Python `s.split(pat)` for a non-empty pattern `p :: ps`:
splits on every non-overlapping occurrence, keeping empty pieces.
The recursion is structural on a fuel argument (which `splitOnStr`
instantiates with the length of the string, an upper bound on the number of
steps) so that all applications reduce inside the kernel. -/
def splitOnStrAux (p : Char) (ps : Str) : Nat → Str → List Str
  | _, [] => [[]]
  | 0, s => [s]
  | fuel + 1, x :: xs =>
    if isPrefixB (p :: ps) (x :: xs) then
      [] :: splitOnStrAux p ps fuel (xs.drop ps.length)
    else
      match splitOnStrAux p ps fuel xs with
      | [] => [[x]]
      | r :: rs => (x :: r) :: rs

/-- Python `s.split(pat)`; for the (unused) empty pattern it returns `[s]`. -/
def splitOnStr (pat : Str) (s : Str) : List Str :=
  match pat with
  | [] => [s]
  | p :: ps => splitOnStrAux p ps s.length s

/-- Python `s.split(pat, 1)`: the part before the first occurrence of the
pattern, and — when the pattern occurs — the part after it. -/
def splitFirstAux (p : Char) (ps : Str) : Str → Str × Option Str
  | [] => ([], none)
  | x :: xs =>
    if isPrefixB (p :: ps) (x :: xs) then ([], some (xs.drop ps.length))
    else
      let r := splitFirstAux p ps xs
      (x :: r.1, r.2)

def splitFirst (pat : Str) (s : Str) : Str × Option Str :=
  match pat with
  | [] => (s, none)
  | p :: ps => splitFirstAux p ps s

/-- Python `s.replace(old, new)` (equals `new.join(s.split(old))`). -/
def replaceStr (old new : Str) (s : Str) : Str :=
  List.intercalate new (splitOnStr old s)

/-- Python `s.lower()` (the inputs compared by the loader are ASCII). -/
def lowerStr (s : Str) : Str := s.map Char.toLower

/-- Python `s.split(sep)` for a single-character separator. -/
def splitOnChar (c : Char) : Str → List Str
  | [] => [[]]
  | x :: xs =>
    if x = c then [] :: splitOnChar c xs
    else
      match splitOnChar c xs with
      | [] => [[x]]
      | r :: rs => (x :: r) :: rs

/-- `sep.join parts` for a single-character separator. -/
def joinChar (c : Char) (parts : List Str) : Str :=
  List.intercalate [c] parts

/-- Numeric value of a digit character. -/
def digitVal (c : Char) : Nat := c.toNat - 48

/-- Value of a digit string read in base 10 (as `int(...)` does). -/
def natVal (s : Str) : Nat := s.foldl (fun a c => 10 * a + digitVal c) 0

def allDigits (s : Str) : Bool := s.all (fun c => c.isDigit)

/-! ### Constants of `loader.py` -/

/-- `NA_TOKENS = {"", "NA", "—", "-999"}` -/
def NA_TOKENS : List Str := [[], "NA".data, "—".data, "-999".data]

/-- `WORD_ZERO = {"nulle", "NULLE"}` (Latvian for numeric zero) -/
def WORD_ZERO : List Str := ["nulle".data, "NULLE".data]

/-- `KEEP_COLS`: the canonical tidy output column order. -/
def KEEP_COLS : List Str :=
  ["station".data, "timestamp".data, "date".data, "time".data,
   "t_max_c".data, "t_min_c".data, "precip_24h_mm".data, "precip_type".data,
   "present_weather_code".data, "notes".data]

/-! ### The number-extraction regex

`re.search(r"-?\d+(?:\.\d+)?", s)` returns the leftmost match: at each start
position the regex engine first takes an optional `-`, then a maximal run of
digits (at least one), then — when a `.` followed by at least one digit comes
next — a maximal fractional digit run. -/

/-- Match `\d+(?:\.\d+)?` anchored at the start of `l`. -/
def digitsNumAt (l : Str) : Option Str :=
  let ds := l.takeWhile (fun c => c.isDigit)
  if ds.isEmpty then none
  else
    match l.drop ds.length with
    | '.' :: r2 =>
      let fs := r2.takeWhile (fun c => c.isDigit)
      if fs.isEmpty then some ds else some (ds ++ '.' :: fs)
    | _ => some ds

/-- Match `-?\d+(?:\.\d+)?` anchored at the start of `l`. -/
def numAt (l : Str) : Option Str :=
  match l with
  | '-' :: rest =>
    match digitsNumAt rest with
    | some m => some ('-' :: m)
    | none => none
  | _ => digitsNumAt l

/-- The leftmost match of `-?\d+(?:\.\d+)?` in `l`, if any. -/
def firstNumber : Str → Option Str
  | [] => none
  | x :: xs =>
    match numAt (x :: xs) with
    | some m => some m
    | none => firstNumber xs

/-- The rational value of a matched number token (sign, integer part,
optional `.` + fractional part): `ip.fp` is the exact rational
`(ip * 10^k + fp) / 10^k` with `k` fractional digits (built with `mkRat`,
which the kernel can evaluate). -/
def numberVal (tok : Str) : ℚ :=
  match tok with
  | '-' :: rest => -(numberVal rest)
  | _ =>
    match splitFirst ['.'] tok with
    | (ip, none) => mkRat (natVal ip : Int) 1
    | (ip, some fp) =>
      mkRat ((natVal ip : Int) * (10 : Int) ^ fp.length + (natVal fp : Int))
        ((10 : Nat) ^ fp.length)

/-! ### `_parse_float_messy` -/

/-- `_parse_float_messy` of `loader.py` on a string input
(`NaN` input is handled at the cell level):
strip; exact sentinel check against `NA_TOKENS`; case-insensitive Latvian
word zero; then delete every occurrence of `" mm"`, rewrite `"MM"` to
`"mm"`, turn every `","` into `"."`, and take the value of the first
`-?\d+(?:\.\d+)?` match, or missing if there is none. -/
def _parse_float_messy (x : Str) : Option ℚ :=
  let s := pyStrip x
  if s ∈ NA_TOKENS then none
  else if lowerStr s ∈ WORD_ZERO then some 0
  else
    let s1 := replaceStr " mm".data [] s
    let s2 := replaceStr "MM".data "mm".data s1
    let s3 := replaceStr ",".data ".".data s2
    (firstNumber s3).map numberVal

/-- Modelled from the claim's words (not from the source), for comparison:
after the sentinel and word-zero checks it "strips the `mm` unit suffix
(including its alternate-case spelling)" — i.e. deletes the occurrences of
`"mm"` and `"MM"`, without touching neighbouring whitespace — "converts
decimal commas to decimal points, and returns the first signed-or-unsigned
decimal-number substring found anywhere in the remaining text". -/
def parse_float_messy_claim (x : Str) : Option ℚ :=
  let s := pyStrip x
  if s ∈ NA_TOKENS then none
  else if lowerStr s ∈ WORD_ZERO then some 0
  else
    let s1 := replaceStr "mm".data [] (replaceStr "MM".data [] s)
    let s2 := replaceStr ",".data ".".data s1
    (firstNumber s2).map numberVal

/-! ### `_parse_date_any`

`datetime.strptime` for the seven formats of `_DATE_FORMATS`: every format is
three fields joined by a literal separator character, and the whole string
must be consumed.  CPython compiles `%Y` to `\d\d\d\d`, `%m` to
`1[0-2]|0[1-9]|[1-9]` and `%d` to `3[01]|[12]\d|0[1-9]|[1-9]`; since the
separators are non-digits, a string matches exactly when it splits on the
separator into three all-digit runs of the right lengths and ranges, and the
`datetime` constructor additionally requires `1 <= year` and a day that
exists in the month. -/

structure Timestamp where
  year : Nat
  month : Nat
  day : Nat
  hour : Nat
  minute : Nat
deriving DecidableEq

inductive FieldOrder where
  | ymd
  | dmy
  | mdy
deriving DecidableEq

structure DateFormat where
  sep : Char
  ord : FieldOrder
deriving DecidableEq

/-- `_DATE_FORMATS`: `%Y-%m-%d`, `%d.%m.%Y`, `%Y/%m/%d`, `%d-%m-%Y`,
`%m-%d-%Y`, `%Y.%m.%d`, `%m/%d/%Y`, in this order. -/
def _DATE_FORMATS : List DateFormat :=
  [⟨'-', FieldOrder.ymd⟩, ⟨'.', FieldOrder.dmy⟩, ⟨'/', FieldOrder.ymd⟩,
   ⟨'-', FieldOrder.dmy⟩, ⟨'-', FieldOrder.mdy⟩, ⟨'.', FieldOrder.ymd⟩,
   ⟨'/', FieldOrder.mdy⟩]

def isLeapYear (y : Nat) : Bool := (y % 4 = 0 && y % 100 ≠ 0) || y % 400 = 0

def daysInMonth (y m : Nat) : Nat :=
  if m = 2 then (if isLeapYear y then 29 else 28)
  else if m ∈ [4, 6, 9, 11] then 30
  else if m ∈ [1, 3, 5, 7, 8, 10, 12] then 31
  else 0

/-- The `%Y` field: exactly four digits; `datetime` requires `1 <= year`. -/
def fieldYear (s : Str) : Option Nat :=
  if allDigits s ∧ s.length = 4 ∧ 1 ≤ natVal s then some (natVal s) else none

/-- The `%m` field: one or two digits with value `1..12`. -/
def fieldMonth (s : Str) : Option Nat :=
  if allDigits s ∧ (s.length = 1 ∨ s.length = 2) ∧ 1 ≤ natVal s ∧ natVal s ≤ 12
  then some (natVal s) else none

/-- The `%d` field: one or two digits with value `1..31` (the regex part);
the check against the month's length happens in the `date` constructor. -/
def fieldDay (s : Str) : Option Nat :=
  if allDigits s ∧ (s.length = 1 ∨ s.length = 2) ∧ 1 ≤ natVal s ∧ natVal s ≤ 31
  then some (natVal s) else none

/-- `datetime.strptime(date_part, fmt)` for one of the seven formats,
`none` on the `ValueError` the loader catches. -/
def tryFormat (f : DateFormat) (s : Str) : Option (Nat × Nat × Nat) :=
  match splitOnChar f.sep s with
  | [p1, p2, p3] =>
    let ymd? : Option (Nat × Nat × Nat) :=
      match f.ord with
      | FieldOrder.ymd => do
        let y ← fieldYear p1; let m ← fieldMonth p2; let d ← fieldDay p3
        pure (y, m, d)
      | FieldOrder.dmy => do
        let d ← fieldDay p1; let m ← fieldMonth p2; let y ← fieldYear p3
        pure (y, m, d)
      | FieldOrder.mdy => do
        let m ← fieldMonth p1; let d ← fieldDay p2; let y ← fieldYear p3
        pure (y, m, d)
    match ymd? with
    | some (y, m, d) => if d ≤ daysInMonth y m then some (y, m, d) else none
    | none => none
  | _ => none

/-- The `for fmt in _DATE_FORMATS: try ... except ValueError: continue` loop:
first successful format wins. -/
def parseDatePortion (s : Str) : Option (Nat × Nat × Nat) :=
  _DATE_FORMATS.findSome? (fun f => tryFormat f s)

/-- `re.search(r"(\d{1,2}):(\d{2})", t)` at one start position, two-digit
hour preferred (greedy `\d{1,2}`). -/
def hmAt (l : Str) : Option (Nat × Nat) :=
  match l with
  | a :: b :: ':' :: c :: d :: _ =>
    if a.isDigit && b.isDigit && c.isDigit && d.isDigit then
      some (10 * digitVal a + digitVal b, 10 * digitVal c + digitVal d)
    else hmOneAt l
  | _ => hmOneAt l
where
  hmOneAt : Str → Option (Nat × Nat)
  | a :: ':' :: c :: d :: _ =>
    if a.isDigit && c.isDigit && d.isDigit then
      some (digitVal a, 10 * digitVal c + digitVal d)
    else none
  | _ => none

/-- The leftmost match of `(\d{1,2}):(\d{2})`. -/
def searchHM : Str → Option (Nat × Nat)
  | [] => none
  | x :: xs =>
    match hmAt (x :: xs) with
    | some r => some r
    | none => searchHM xs

/-- `_parse_date_any` of `loader.py` on a string input (`NaN` input is
handled at the cell level).  `dt.replace(hour=..., minute=...)` sits outside
the `try`/`except`, so an out-of-range matched time raises `ValueError`,
modelled as `Except.error` with CPython's message. -/
def _parse_date_any (x : Str) : Except Str (Option Timestamp) :=
  let s := pyStrip x
  let dp := if s.contains ' ' then splitFirst [' '] s else (s, none)
  match parseDatePortion dp.1 with
  | none => Except.ok none
  | some (y, m, d) =>
    match dp.2 with
    | none => Except.ok (some ⟨y, m, d, 0, 0⟩)
    | some tp =>
      if tp.isEmpty then Except.ok (some ⟨y, m, d, 0, 0⟩)
      else
        match searchHM tp with
        | none => Except.ok (some ⟨y, m, d, 0, 0⟩)
        | some (h, mi) =>
          if 24 ≤ h then Except.error "hour must be in 0..23".data
          else if 60 ≤ mi then Except.error "minute must be in 0..59".data
          else Except.ok (some ⟨y, m, d, h, mi⟩)

/-! ### Header and separator detection -/

/-- An input file: its path (used in error messages), its base name without
extension (`Path.stem`, used as the station-label fallback) and its lines
(without the trailing newline). -/
structure SourceFile where
  path : Str
  stem : Str
  lines : List Str

/-- `_detect_separator` of `loader.py`: inspect the payload after the first
`fields=` of the header line; TAB wins, then the first of `|`, `;`, `,`
contained in it, else `,`. -/
def _detect_separator (fields_line : Str) : Char :=
  let payload := pyStrip ((splitFirst "fields=".data fields_line).2.getD [])
  if payload.contains '\t' then '\t'
  else if payload.contains '|' then '|'
  else if payload.contains ';' then ';'
  else if payload.contains ',' then ','
  else ','

/-- `line.strip().split("station_name=")[1]`: the text captured from a line
containing a `station_name=` directive (the piece between the first and a
possible second occurrence of the marker). -/
def stationVal (line : Str) : Str :=
  (splitOnStr "station_name=".data (pyStrip line)).getD 1 []

/-- The header-scanning loop of `_read_header`: walk the leading `#` lines,
capturing the text after `station_name=` (each occurrence overwrites the
previous one), and stop with the stripped line at the first line starting
with `# fields=`.  Returns the captured station name and the `fields=`
line, if found. -/
def headerScan (station : Option Str) : List Str → Option Str × Option Str
  | [] => (station, none)
  | line :: rest =>
    if ¬ (isPrefixB "#".data line) then (station, none)
    else
      let station' :=
        if containsSubstr line "station_name=".data then some (stationVal line)
        else station
      if isPrefixB "# fields=".data line then (station', some (pyStrip line))
      else headerScan station' rest

/-- The lines the header-scanning loop actually visits: the leading `#`
lines up to and including the first `# fields=` line (used to state which
`station_name=` directives the loop can see). -/
def headerScannedLines : List Str → List Str
  | [] => []
  | line :: rest =>
    if ¬ (isPrefixB "#".data line) then []
    else if isPrefixB "# fields=".data line then [line]
    else line :: headerScannedLines rest

/-- `_read_header` of `loader.py`: `(station_label, separator, columns)`, or
the `ValueError` message when no `# fields=` line precedes the data.
`station_name or path.stem` falls back to the stem when the captured name is
absent or empty. -/
def _read_header (f : SourceFile) : Except Str (Str × Char × List Str) :=
  match headerScan none f.lines with
  | (_, none) =>
    Except.error ("Missing '# fields=' header in ".data ++ f.path)
  | (stationName, some fields_line) =>
    let sep := _detect_separator fields_line
    let cols := (splitOnChar sep ((splitFirst "fields=".data fields_line).2.getD [])).map pyStrip
    let station :=
      match stationName with
      | none => f.stem
      | some s => if s.isEmpty then f.stem else s
    Except.ok (station, sep, cols)

/-! ### Row reading -/

/-- `re.sub(r"(?<=\d),(?=\d)", ".", line)`: replace each comma that sits
between two digits (of the original line) by a decimal point. -/
def commaFixAux (prev : Option Char) : Str → Str
  | [] => []
  | c :: rest =>
    let digBefore := match prev with
      | some p => p.isDigit
      | none => false
    let digAfter := match rest with
      | d :: _ => d.isDigit
      | [] => false
    let c' := if c = ',' && digBefore && digAfter then '.' else c
    c' :: commaFixAux (some c) rest

def commaFix (s : Str) : Str := commaFixAux none s

/-- The token-count fix of `_read_rows_raw`: a row with too many tokens
keeps the first `N-1` and folds the rest (re-joined with the separator)
into the final column; a short row is right-padded with empty strings. -/
def fixRow (sep : Char) (n : Nat) (parts : List Str) : List Str :=
  if parts.length = n then parts
  else if n < parts.length then
    parts.take (n - 1) ++ [joinChar sep (parts.drop (n - 1))]
  else parts ++ List.replicate (n - parts.length) []

/-- The per-line work of `_read_rows_raw` on one non-comment line. -/
def tokenizeLine (sep : Char) (n : Nat) (line : Str) : List Str :=
  let line' := if sep = ',' then commaFix line else line
  fixRow sep n (splitOnChar sep line')

/-- `_read_rows_raw` of `loader.py`, as the list of tokenized rows (the
`pd.DataFrame(rows, columns=cols, dtype=str)` wrapper is applied by
`load_one`): comment lines are skipped, every other line is tokenized. -/
def _read_rows_raw (f : SourceFile) (sep : Char) (cols : List Str) : List (List Str) :=
  (f.lines.filter (fun l => ¬ (isPrefixB "#".data l))).map
    (tokenizeLine sep cols.length)

/-! ### Cells and tables

A pandas `DataFrame` is modelled as an ordered list of named columns of
equal length.  A cell is a missing value (`NaN`/`NaT`/`pd.NA`), a string, a
parsed rational number, a nullable integer, a timestamp, or one of the
derived date / time-of-day projections. -/

inductive Cell where
  | na : Cell
  | str : Str → Cell
  | rat : ℚ → Cell
  | int : Int → Cell
  | ts : Timestamp → Cell
  | dateV : Nat × Nat × Nat → Cell
  | timeV : Nat × Nat → Cell
deriving DecidableEq

abbrev Table := List (Str × List Cell)

/-- `df[name]` (first column with that name). -/
def getCol (t : Table) (name : Str) : Option (List Cell) :=
  (t.find? (fun p => p.1 = name)).map (fun p => p.2)

/-- `df[name] = col`: replace the first column with that name in place, or
append the column at the end. -/
def setCol : Table → Str → List Cell → Table
  | [], n, c => [(n, c)]
  | (m, v) :: rest, n, c =>
    if m = n then (n, c) :: rest else (m, v) :: setCol rest n c

/-- The row count of a table (the length of its first column). -/
def numRows (t : Table) : Nat :=
  match t with
  | [] => 0
  | (_, v) :: _ => v.length

/-- `pd.to_numeric(s, errors="coerce")` on a string: optional sign, then a
plain decimal number with optional fraction and optional exponent,
surrounded by optional whitespace; anything else coerces to `NaN`.  The
value is modelled exactly as a rational. -/
def pyToNumeric (s0 : Str) : Option ℚ :=
  let s := pyStrip s0
  let (sgn, s1) : Int × Str :=
    match s with
    | '-' :: r => (-1, r)
    | '+' :: r => (1, r)
    | _ => (1, s)
  let ip := s1.takeWhile (fun c => c.isDigit)
  let rest := s1.drop ip.length
  let (fp, rest2) : Str × Str :=
    match rest with
    | '.' :: r => (r.takeWhile (fun c => c.isDigit), r.drop (r.takeWhile (fun c => c.isDigit)).length)
    | _ => ([], rest)
  if ip.isEmpty ∧ fp.isEmpty then none
  else
    let scaled (e : Int) : ℚ :=
      mkRat (sgn * ((natVal ip : Int) * (10 : Int) ^ fp.length + (natVal fp : Int)) *
               (10 : Int) ^ (e.toNat))
        ((10 : Nat) ^ fp.length * (10 : Nat) ^ ((-e).toNat))
    match rest2 with
    | [] => some (scaled 0)
    | 'e' :: ex => (expVal ex).map scaled
    | 'E' :: ex => (expVal ex).map scaled
    | _ => none
where
  expVal (ex : Str) : Option Int :=
    let (esgn, ds) : Int × Str :=
      match ex with
      | '-' :: r => (-1, r)
      | '+' :: r => (1, r)
      | _ => (1, ex)
    if ds.isEmpty ∨ ¬ allDigits ds then none else some (esgn * (natVal ds : Int))

/-- `numpy`'s `.round()`: round half to even, computed on the numerator and
denominator (`f` is the floor, `rem` the remainder `0 ≤ rem < den`; the
fractional part `rem/den` is compared with `1/2` via `2*rem` vs `den`). -/
def roundHalfEven (q : ℚ) : Int :=
  let n := q.num
  let d : Int := (q.den : Int)
  let f := Int.fdiv n d
  let rem := n - f * d
  if 2 * rem < d then f
  else if d < 2 * rem then f + 1
  else if f % 2 = 0 then f else f + 1

/-- The `raw.replace({v: np.nan for v in NA_TOKENS})` step on one cell. -/
def naTokenCell : Cell → Cell
  | Cell.str s => if s ∈ NA_TOKENS then Cell.na else Cell.str s
  | c => c

/-- `pd.to_numeric(df[c].str.replace(",", "."), errors="coerce")` per cell. -/
def toNumericCell : Cell → Cell
  | Cell.na => Cell.na
  | Cell.str s =>
    match pyToNumeric (replaceStr ",".data ".".data s) with
    | some q => Cell.rat q
    | none => Cell.na
  | c => c

/-- `df[c].apply(_parse_float_messy)` per cell (`pd.isna` short-circuits). -/
def precipCell : Cell → Cell
  | Cell.na => Cell.na
  | Cell.str s =>
    match _parse_float_messy s with
    | some q => Cell.rat q
    | none => Cell.na
  | c => c

/-- `df["date"].apply(_parse_date_any)` per cell; the `ValueError` raised on
an out-of-range matched time propagates out of `load_one`. -/
def parseDateCell : Cell → Except Str Cell
  | Cell.na => Except.ok Cell.na
  | Cell.str s =>
    match _parse_date_any s with
    | Except.error e => Except.error e
    | Except.ok none => Except.ok Cell.na
    | Except.ok (some t) => Except.ok (Cell.ts t)
  | c => Except.ok c

/-- `pd.to_datetime(out["timestamp"]).dt.date` per cell (`NaT` stays
missing). -/
def dateProjCell : Cell → Cell
  | Cell.ts t => Cell.dateV (t.year, t.month, t.day)
  | _ => Cell.na

/-- `pd.to_datetime(out["timestamp"]).dt.time` per cell. -/
def timeProjCell : Cell → Cell
  | Cell.ts t => Cell.timeV (t.hour, t.minute)
  | _ => Cell.na

/-- `pd.to_numeric(...).round().astype("Int64")` per cell of a column that
already went through the numeric coercion loop. -/
def int64Cell : Cell → Cell
  | Cell.rat q => Cell.int (roundHalfEven q)
  | _ => Cell.na

/-- The numeric-coercion loop of `load_one` (lines 184-189). -/
def NUMERIC_COLS : List Str :=
  ["t_max_c".data, "t_min_c".data, "precip_24h_mm".data, "present_weather_code".data]

def coerceNumerics (t : Table) : Table :=
  NUMERIC_COLS.foldl
    (fun d c =>
      match getCol d c with
      | some col =>
        if c = "precip_24h_mm".data then setCol d c (col.map precipCell)
        else setCol d c (col.map toNumericCell)
      | none => d)
    t

/-- `load_one` of `loader.py`.

Two genuine exception paths of the source are modelled as `Except.error`:
the missing-`fields=` `ValueError` from `_read_header`, the `ValueError`
escaping `_parse_date_any` on an out-of-range matched time, and the
`TypeError` at `codes.astype("Int64")` when the file declares no
`present_weather_code` column — in that case `df.get` yields `None`,
`pd.to_numeric(None, errors="coerce")` yields the scalar
`numpy.float64('nan')`, whose `.round()` is again a numpy scalar, and
numpy's `astype` rejects the pandas-only dtype string `"Int64"` with
`TypeError: data type 'Int64' not understood`. -/
def load_one (f : SourceFile) : Except Str Table :=
  match _read_header f with
  | Except.error e => Except.error e
  | Except.ok (station_label, sep, cols) =>
    let rows := _read_rows_raw f sep cols
    let raw : Table :=
      cols.enum.map (fun p => (p.2, rows.map (fun r => Cell.str (r.getD p.1 []))))
    let df1 : Table := raw.map (fun p => (p.1, p.2.map naTokenCell))
    let df2 := coerceNumerics df1
    let tsCol : Except Str (List Cell) :=
      match getCol df2 "date".data with
      | some dcol => dcol.mapM parseDateCell
      | none => Except.ok (List.replicate (numRows df2) Cell.na)
    match tsCol with
    | Except.error e => Except.error e
    | Except.ok tscol =>
      let df3 := setCol df2 "timestamp".data tscol
      let df4 := setCol df3 "station".data
        (List.replicate (numRows df3) (Cell.str station_label))
      let out0 : Table :=
        (KEEP_COLS.filter
          (fun k => ¬ (k ∈ ["timestamp".data, "date".data, "time".data]))).map
          (fun k =>
            (k, match getCol df4 k with
                | some col => col
                | none => List.replicate (numRows df4) Cell.na))
      let out1 := setCol out0 "timestamp".data ((getCol df4 "timestamp".data).getD [])
      let out2 := setCol out1 "date".data
        (((getCol df4 "timestamp".data).getD []).map dateProjCell)
      let out3 := setCol out2 "time".data
        (((getCol df4 "timestamp".data).getD []).map timeProjCell)
      match getCol df4 "present_weather_code".data with
      | some pwcol =>
        let out4 := setCol out3 "present_weather_code".data (pwcol.map int64Cell)
        Except.ok (KEEP_COLS.filterMap (fun k => (getCol out4 k).map (fun c => (k, c))))
      | none => Except.error "TypeError: data type 'Int64' not understood".data

/-! ### The corpus merge (`load_all`)

`pd.concat(frames, ignore_index=True)` stacks the per-file tables (all of
which have exactly the `KEEP_COLS` columns) row-wise; `dropna(subset=
["timestamp"])` keeps the rows whose timestamp cell is present;
`sort_values(["station", "timestamp"])` sorts by the two keys with
`numpy.lexsort`, which is stable, so ties keep the concatenation order.
The sort is modelled with `List.mergeSort`, which is also stable. -/

/-- The rows of a table (each row lists the cells in column order;
`load_one` tables have the ten `KEEP_COLS` columns, so a row's station is
entry 0 and its timestamp entry 1). -/
def tableRows (t : Table) : List (List Cell) :=
  (List.range (numRows t)).map (fun i => t.map (fun p => p.2.getD i Cell.na))

abbrev Row := List Cell

def rowStation (r : Row) : Str :=
  match r.getD 0 Cell.na with
  | Cell.str s => s
  | _ => []

def rowTimestamp (r : Row) : Timestamp :=
  match r.getD 1 Cell.na with
  | Cell.ts t => t
  | _ => ⟨0, 0, 0, 0, 0⟩

/-- A row survives `dropna(subset=["timestamp"])` iff its timestamp cell is
an actual timestamp. -/
def rowHasTs (r : Row) : Bool :=
  match r.getD 1 Cell.na with
  | Cell.ts _ => true
  | _ => false

/-- Strict lexicographic order on lists of naturals. -/
def natLexLt : List Nat → List Nat → Bool
  | [], [] => false
  | [], _ :: _ => true
  | _ :: _, [] => false
  | a :: as, b :: bs =>
    if a < b then true
    else if b < a then false
    else natLexLt as bs

/-- Strict lexicographic order on strings by code point — Python's `<` on
`str`, which pandas uses for the object-dtype `station` column. -/
def strLtB (a b : Str) : Bool :=
  natLexLt (a.map Char.toNat) (b.map Char.toNat)

def tsComponents (t : Timestamp) : List Nat :=
  [t.year, t.month, t.day, t.hour, t.minute]

/-- Strict chronological order on timestamps (lexicographic on the
components, as `datetime` comparison is). -/
def tsLtB (a b : Timestamp) : Bool :=
  natLexLt (tsComponents a) (tsComponents b)

/-- The `(station, timestamp)` sort key of a row. -/
def rowKey (r : Row) : Str × Timestamp := (rowStation r, rowTimestamp r)

/-- Strict lexicographic order on sort keys. -/
def keyLtB (a b : Str × Timestamp) : Bool :=
  strLtB a.1 b.1 || (a.1 = b.1 && tsLtB a.2 b.2)

/-- The non-strict comparator handed to the (stable) sort. -/
def rowLe (a b : Row) : Bool := ! keyLtB (rowKey b) (rowKey a)

/-- `load_all` of `loader.py` on an explicit file list, returning the rows
of the merged, filtered and sorted corpus.  `pd.concat` of an empty list
raises `ValueError: No objects to concatenate`. -/
def load_all (files : List SourceFile) : Except Str (List Row) :=
  match files.mapM load_one with
  | Except.error e => Except.error e
  | Except.ok frames =>
    if frames.isEmpty then Except.error "No objects to concatenate".data
    else
      Except.ok ((((frames.map tableRows).flatten).filter rowHasTs).mergeSort rowLe)

/-- The table `load_one` produces for the one-row file
`# fields=date|present_weather_code` / `1925-03-04|7` with stem `w`
(used as a concrete frame in examples). -/
def wFrame : Table :=
  [("station".data, [Cell.str "w".data]),
   ("timestamp".data, [Cell.ts ⟨1925, 3, 4, 0, 0⟩]),
   ("date".data, [Cell.dateV (1925, 3, 4)]),
   ("time".data, [Cell.timeV (0, 0)]),
   ("t_max_c".data, [Cell.na]), ("t_min_c".data, [Cell.na]),
   ("precip_24h_mm".data, [Cell.na]), ("precip_type".data, [Cell.na]),
   ("present_weather_code".data, [Cell.int 7]), ("notes".data, [Cell.na])]

/-! ## Helper lemmas about `pyStrip` -/

theorem pyLStrip_ws_append {w l : Str} (h : ∀ c ∈ w, isPyWs c = true) :
    pyLStrip (w ++ l) = pyLStrip l :=
  List.dropWhile_append_of_pos h

theorem pyRStrip_append_ws {w l : Str} (h : ∀ c ∈ w, isPyWs c = true) :
    pyRStrip (l ++ w) = pyRStrip l := by
  unfold pyRStrip
  rw [List.reverse_append, List.dropWhile_append_of_pos]
  intro c hc
  exact h c (List.mem_reverse.mp hc)

theorem pyLStrip_append_of_ne_nil {s : Str} (w : Str) (h : pyLStrip s ≠ []) :
    pyLStrip (s ++ w) = pyLStrip s ++ w := by
  unfold pyLStrip at *
  rw [List.dropWhile_append]
  simp only [List.isEmpty_iff]
  rw [if_neg h]

theorem pyLStrip_eq_nil_all_ws {s : Str} (h : pyLStrip s = []) :
    ∀ c ∈ s, isPyWs c = true := by
  intro c hc
  exact List.dropWhile_eq_nil_iff.mp h c hc

theorem pyStrip_ws_invariant {s w₁ w₂ : Str}
    (h₁ : ∀ c ∈ w₁, isPyWs c = true) (h₂ : ∀ c ∈ w₂, isPyWs c = true) :
    pyStrip (w₁ ++ s ++ w₂) = pyStrip s := by
  unfold pyStrip
  rw [List.append_assoc, pyLStrip_ws_append h₁]
  by_cases hs : pyLStrip s = []
  · have hall : ∀ c ∈ s ++ w₂, isPyWs c = true := by
      intro c hc
      rcases List.mem_append.mp hc with h | h
      · exact pyLStrip_eq_nil_all_ws hs c h
      · exact h₂ c h
    have : pyLStrip (s ++ w₂) = [] := List.dropWhile_eq_nil_iff.mpr hall
    rw [this, hs]
  · rw [pyLStrip_append_of_ne_nil w₂ hs, pyRStrip_append_ws h₂]

theorem pyStrip_eq_self {s : Str} (h : ∀ c ∈ s, isPyWs c = false) :
    pyStrip s = s := by
  have h1 : pyLStrip s = s := by
    unfold pyLStrip
    cases s with
    | nil => rfl
    | cons c cs => rw [List.dropWhile_cons, if_neg (by simp [h c (by simp)])]
  unfold pyStrip
  rw [h1]
  unfold pyRStrip
  cases hrev : s.reverse with
  | nil => simpa using congrArg List.reverse hrev
  | cons c cs =>
    have hc : c ∈ s := by
      have : c ∈ s.reverse := by rw [hrev]; exact List.mem_cons_self c cs
      exact List.mem_reverse.mp this
    rw [List.dropWhile_cons, if_neg (by simp [h c hc]), ← hrev,
      List.reverse_reverse]

/-! ## Claim C1 -/

/-- C1: the claim states that every value-normalization function is total and
never raises, in particular on `"1925-03-04 25:70"`.  This is false on the
code: `_parse_date_any` matches `25:70` with the time regex and
`dt.replace(hour=25, minute=70)` raises `ValueError: hour must be in 0..23`,
which no handler catches.  This theorem evaluates the model of the code at
the failing input. -/
theorem c1_parse_date_any_raises_on_out_of_range_clock :
    _parse_date_any "1925-03-04 25:70".data =
      Except.error "hour must be in 0..23".data := by
  rfl

/-! ## Claim C6 -/

/-- C6 counterexample: on `"3 mm2"` the code deletes the occurrence of
`" mm"` together with its leading space, joining the digit runs into `"32"`
and returning `32.0`, while the behaviour the claim describes — strip the
`"mm"` unit token (case-insensitively), convert commas, then take the first
decimal-number substring — leaves the space and returns `3.0`. -/
theorem c6_counterexample_space_mm_digit_join :
    _parse_float_messy "3 mm2".data = some 32 ∧
    parse_float_messy_claim "3 mm2".data = some 3 ∧
    _parse_float_messy "3 mm2".data ≠ parse_float_messy_claim "3 mm2".data := by
  refine ⟨by decide, by decide, by decide⟩

/-- C6 amended: `_parse_float_messy` maps `"12,5 mm"` to `12.5`, `"nulle"`
in any letter case to `0.0`, each of `"-999"`, `"NA"`, the empty string and
the em-dash to missing, and `"7.3"` to `7.3`; for any other string it
deletes every occurrence of `" mm"` together with its preceding space
(which can join adjacent digit runs), rewrites the alternate-case spelling
`"MM"` to `"mm"` without removing it, converts decimal commas to decimal
points, and returns the first signed-or-unsigned decimal-number substring
found anywhere in the resulting text, or missing when no such substring
exists. -/
theorem c6_amended_parse_float_messy :
    _parse_float_messy "12,5 mm".data = some (mkRat 25 2) ∧
    (∀ s : Str, lowerStr (pyStrip s) = "nulle".data → _parse_float_messy s = some 0) ∧
    _parse_float_messy "-999".data = none ∧
    _parse_float_messy "NA".data = none ∧
    _parse_float_messy [] = none ∧
    _parse_float_messy "—".data = none ∧
    _parse_float_messy "7.3".data = some (mkRat 73 10) ∧
    (∀ s : Str, pyStrip s ∉ NA_TOKENS → lowerStr (pyStrip s) ∉ WORD_ZERO →
      _parse_float_messy s =
        (firstNumber (replaceStr ",".data ".".data (replaceStr "MM".data "mm".data
          (replaceStr " mm".data [] (pyStrip s))))).map numberVal) := by
  refine ⟨by decide, ?_, by decide, by decide, by decide, by decide, by decide, ?_⟩
  · intro s h
    have hlen : (pyStrip s).length = 5 := by
      have := congrArg List.length h
      simpa [lowerStr] using this
    have hna : pyStrip s ∉ NA_TOKENS := by
      intro hmem
      have : (pyStrip s).length ∈ [0, 2, 1, 4] := by
        rcases (by simpa [NA_TOKENS] using hmem : pyStrip s = [] ∨
            pyStrip s = "NA".data ∨ pyStrip s = "—".data ∨ pyStrip s = "-999".data)
          with h1 | h1 | h1 | h1 <;> rw [h1] <;> decide
      rw [hlen] at this
      simp at this
    have hwz : lowerStr (pyStrip s) ∈ WORD_ZERO := by
      rw [h]; decide
    unfold _parse_float_messy
    rw [if_neg hna, if_pos hwz]
  · intro s hna hwz
    unfold _parse_float_messy
    rw [if_neg hna, if_neg hwz]

/-- C6 amended, witness: the general branch applied to the concrete inputs
`"NuLLe"` and `"x1 mm2,5y"`. -/
theorem c6_amended_witness :
    _parse_float_messy "NuLLe".data = some 0 ∧
    _parse_float_messy "x1 mm2,5y".data =
      (firstNumber (replaceStr ",".data ".".data (replaceStr "MM".data "mm".data
        (replaceStr " mm".data [] (pyStrip "x1 mm2,5y".data))))).map numberVal :=
  ⟨c6_amended_parse_float_messy.2.1 "NuLLe".data (by rfl),
   c6_amended_parse_float_messy.2.2.2.2.2.2.2 "x1 mm2,5y".data (by decide) (by decide)⟩

/-! ## Claim C10 -/

/-- C10: `_parse_float_messy` is invariant under leading and trailing
whitespace padding: for every string and every pair of all-whitespace
paddings, the padded and unpadded inputs yield the same result — because
the very first step of the function is Python's `strip()`, which absorbs
the padding before the (whole-cell) sentinel comparison. -/
theorem c10_parse_float_messy_ws_invariant (s w₁ w₂ : Str)
    (h₁ : ∀ c ∈ w₁, isPyWs c = true) (h₂ : ∀ c ∈ w₂, isPyWs c = true) :
    _parse_float_messy (w₁ ++ s ++ w₂) = _parse_float_messy s := by
  unfold _parse_float_messy
  rw [pyStrip_ws_invariant h₁ h₂]

/-- C10 witness: the sentinel tokens `" NA "` and `" -999 "` surrounded by
whitespace are still treated as missing. -/
theorem c10_witness :
    _parse_float_messy (" ".data ++ "NA".data ++ " ".data) = _parse_float_messy "NA".data ∧
    _parse_float_messy ("\t".data ++ "-999".data ++ " \n".data) = _parse_float_messy "-999".data ∧
    _parse_float_messy "NA".data = none ∧ _parse_float_messy "-999".data = none :=
  ⟨c10_parse_float_messy_ws_invariant "NA".data " ".data " ".data (by decide) (by decide),
   c10_parse_float_messy_ws_invariant "-999".data "\t".data " \n".data (by decide) (by decide),
   by rfl, by rfl⟩

/-! ## Claim C8 -/

theorem splitFirst_after_fields_marker (p : Str) :
    splitFirst "fields=".data ("# fields=".data ++ p) = ("# ".data, some p) := rfl

/-- C8: for every `fields=` header payload (the text after `fields=`, here
with no surrounding whitespace, as produced by the already-stripped header
line), the inferred separator is TAB when the payload contains a TAB;
otherwise the first of `|`, `;`, `,` that occurs in it; and `,` when none
occurs — so a payload delimited by `|` or `;` is never misdetected as
comma-separated even when it contains literal commas. -/
theorem c8_detect_separator_priority (p : Str) (hp : pyStrip p = p) :
    (p.contains '\t' = true → _detect_separator ("# fields=".data ++ p) = '\t') ∧
    (p.contains '\t' = false → p.contains '|' = true →
      _detect_separator ("# fields=".data ++ p) = '|') ∧
    (p.contains '\t' = false → p.contains '|' = false → p.contains ';' = true →
      _detect_separator ("# fields=".data ++ p) = ';') ∧
    (p.contains '\t' = false → p.contains '|' = false → p.contains ';' = false →
      _detect_separator ("# fields=".data ++ p) = ',') := by
  have hpay : _detect_separator ("# fields=".data ++ p) =
      (if p.contains '\t' then '\t'
       else if p.contains '|' then '|'
       else if p.contains ';' then ';'
       else if p.contains ',' then ',' else ',') := by
    unfold _detect_separator
    rw [splitFirst_after_fields_marker]
    simp only [Option.getD_some, hp]
  refine ⟨?_, ?_, ?_, ?_⟩
  · intro h1; rw [hpay, if_pos h1]
  · intro h1 h2; rw [hpay, if_neg (by rw [h1]; decide), if_pos h2]
  · intro h1 h2 h3
    rw [hpay, if_neg (by rw [h1]; decide), if_neg (by rw [h2]; decide), if_pos h3]
  · intro h1 h2 h3
    rw [hpay, if_neg (by rw [h1]; decide), if_neg (by rw [h2]; decide), if_neg (by rw [h3]; decide)]
    exact ite_self ','

/-- C8 witness: a concrete pipe-delimited payload containing a literal
comma is detected as pipe-separated, not comma-separated. -/
theorem c8_witness :
    _detect_separator ("# fields=".data ++ "date|notes, remarks".data) = '|' :=
  (c8_detect_separator_priority "date|notes, remarks".data (by decide)).2.1
    (by decide) (by decide)

/-! ## Claim C7 -/

/-- C7: for every separator, declared column count `N ≥ 1` and data line:
tokenizing splits the (comma-rewritten when the separator is a comma) line
on the separator and then fixes the token count — more than `N` tokens keep
the first `N-1` and re-join the rest with the separator into the final
column, fewer are right-padded with empty strings, and the result always
has exactly `N` entries; every row produced by `_read_rows_raw` has the
declared column count. -/
theorem c7_row_tokenization (sep : Char) (n : Nat) (hn : 1 ≤ n) :
    (∀ line : Str, tokenizeLine sep n line =
        fixRow sep n (splitOnChar sep (if sep = ',' then commaFix line else line))) ∧
    (∀ parts : List Str, n < parts.length →
        fixRow sep n parts = parts.take (n - 1) ++ [joinChar sep (parts.drop (n - 1))]) ∧
    (∀ parts : List Str, parts.length < n →
        fixRow sep n parts = parts ++ List.replicate (n - parts.length) []) ∧
    (∀ parts : List Str, (fixRow sep n parts).length = n) ∧
    (∀ (f : SourceFile) (cols : List Str), cols.length = n →
        ∀ r ∈ _read_rows_raw f sep cols, r.length = n) := by
  have hfix : ∀ parts : List Str, (fixRow sep n parts).length = n := by
    intro parts
    unfold fixRow
    by_cases he : parts.length = n
    · rw [if_pos he]; exact he
    · rw [if_neg he]
      by_cases hgt : n < parts.length
      · rw [if_pos hgt]
        simp only [List.length_append, List.length_take, List.length_cons,
          List.length_nil]
        omega
      · rw [if_neg hgt]
        simp only [List.length_append, List.length_replicate]
        omega
  refine ⟨fun line => rfl, ?_, ?_, hfix, ?_⟩
  · intro parts h
    unfold fixRow
    rw [if_neg (by omega), if_pos h]
  · intro parts h
    unfold fixRow
    rw [if_neg (by omega), if_neg (by omega)]
  · intro f cols hc r hr
    unfold _read_rows_raw at hr
    rcases List.mem_map.mp hr with ⟨line, _, rfl⟩
    rw [hc]
    exact hfix _

/-- C7 witness: with two declared columns, a four-token pipe line folds its
tail into the final column, and with four declared columns a two-token line
is padded; both results have the declared width. -/
theorem c7_witness :
    fixRow '|' 2 ["a".data, "b".data, "c".data, "d".data] =
      (["a".data, "b".data, "c".data, "d".data].take 1 ++
        [joinChar '|' (["a".data, "b".data, "c".data, "d".data].drop 1)]) ∧
    fixRow '|' 4 ["a".data, "b".data] =
      ["a".data, "b".data] ++ List.replicate 2 [] ∧
    tokenizeLine '|' 2 "a|b|c|d".data = ["a".data, "b|c|d".data] :=
  ⟨(c7_row_tokenization '|' 2 (by decide)).2.1 _ (by decide),
   (c7_row_tokenization '|' 4 (by decide)).2.2.1 _ (by decide),
   by decide⟩

/-! ## Claim C5 -/

theorem contains_eq_false {c : Char} {l : Str} (h : c ∉ l) :
    l.contains c = false := by
  rw [show l.contains c = l.elem c from rfl, List.elem_eq_mem, decide_eq_false h]

theorem splitOnChar_of_not_mem {c : Char} {l : Str} (h : c ∉ l) :
    splitOnChar c l = [l] := by
  induction l with
  | nil => rfl
  | cons x xs ih =>
    have hxc : ¬ x = c := fun hxc => h (by rw [← hxc]; exact List.mem_cons_self x xs)
    have hrest := ih (fun hm => h (List.mem_cons_of_mem x hm))
    unfold splitOnChar
    rw [if_neg hxc, hrest]

theorem splitOnChar_append {c : Char} {xs ys : Str} (h : c ∉ xs) :
    splitOnChar c (xs ++ c :: ys) = xs :: splitOnChar c ys := by
  induction xs with
  | nil => simp [splitOnChar]
  | cons x t ih =>
    have hxc : ¬ x = c := fun hxc => h (by rw [← hxc]; exact List.mem_cons_self x t)
    have hrest := ih (fun hm => h (List.mem_cons_of_mem x hm))
    simp only [List.cons_append]
    conv_lhs => unfold splitOnChar
    rw [if_neg hxc, hrest]

theorem isDigit_not_pyWs {c : Char} (h : c.isDigit = true) : isPyWs c = false := by
  revert h
  unfold isPyWs pyWhitespaceChars
  by_cases hc : c ∈ [' ', '\t', '\n', '\r', '\x0b', '\x0c']
  · rcases (by simpa using hc : c = ' ' ∨ c = '\t' ∨ c = '\n' ∨ c = '\r' ∨
      c = '\x0b' ∨ c = '\x0c') with rfl | rfl | rfl | rfl | rfl | rfl <;> decide
  · intro _
    exact contains_eq_false hc

/-- C5: `_parse_date_any` maps `"1925-03-04"` to midnight of 1925-03-04,
`"04.03.1925 14:30"` to 14:30 of that date, and `"not-a-date"` to missing,
with the derived date and time cell projections of a missing timestamp also
missing; the seven formats are tried in order with the first success
winning (if format `i` succeeds and all earlier ones fail, the result is
format `i`'s); and any all-numeric `a-b-y` date whose first two components
are both at most 12 — ambiguous between day-first `%d-%m-%Y` and
month-first `%m-%d-%Y` — parses day-first. -/
theorem c5_parse_date_any_format_order :
    _parse_date_any "1925-03-04".data = Except.ok (some ⟨1925, 3, 4, 0, 0⟩) ∧
    _parse_date_any "04.03.1925 14:30".data = Except.ok (some ⟨1925, 3, 4, 14, 30⟩) ∧
    _parse_date_any "not-a-date".data = Except.ok none ∧
    (parseDateCell (Cell.str "not-a-date".data) = Except.ok Cell.na ∧
      dateProjCell Cell.na = Cell.na ∧ timeProjCell Cell.na = Cell.na) ∧
    (∀ (s : Str) (i : Nat) (r : Nat × Nat × Nat), i < 7 →
      tryFormat (_DATE_FORMATS.getD i ⟨'-', FieldOrder.ymd⟩) s = some r →
      (∀ j, j < i → tryFormat (_DATE_FORMATS.getD j ⟨'-', FieldOrder.ymd⟩) s = none) →
      parseDatePortion s = some r) ∧
    (∀ da mb y4 : Str,
      allDigits da = true → (da.length = 1 ∨ da.length = 2) →
      1 ≤ natVal da → natVal da ≤ 12 →
      allDigits mb = true → (mb.length = 1 ∨ mb.length = 2) →
      1 ≤ natVal mb → natVal mb ≤ 12 →
      allDigits y4 = true → y4.length = 4 → 1 ≤ natVal y4 →
      natVal da ≤ daysInMonth (natVal y4) (natVal mb) →
      _parse_date_any (da ++ '-' :: (mb ++ '-' :: y4)) =
        Except.ok (some ⟨natVal y4, natVal mb, natVal da, 0, 0⟩)) := by
  refine ⟨by rfl, by rfl, by rfl, ⟨by rfl, by rfl, by rfl⟩, ?_, ?_⟩
  · intro s i r hi hr hj
    interval_cases i
    · have hr' : tryFormat ⟨'-', FieldOrder.ymd⟩ s = some r := hr
      simp only [parseDatePortion, _DATE_FORMATS, List.findSome?_cons, hr']
    · have e0 : tryFormat ⟨'-', FieldOrder.ymd⟩ s = none := hj 0 (by omega)
      have hr' : tryFormat ⟨'.', FieldOrder.dmy⟩ s = some r := hr
      simp only [parseDatePortion, _DATE_FORMATS, List.findSome?_cons, e0, hr']
    · have e0 : tryFormat ⟨'-', FieldOrder.ymd⟩ s = none := hj 0 (by omega)
      have e1 : tryFormat ⟨'.', FieldOrder.dmy⟩ s = none := hj 1 (by omega)
      have hr' : tryFormat ⟨'/', FieldOrder.ymd⟩ s = some r := hr
      simp only [parseDatePortion, _DATE_FORMATS, List.findSome?_cons, e0, e1, hr']
    · have e0 : tryFormat ⟨'-', FieldOrder.ymd⟩ s = none := hj 0 (by omega)
      have e1 : tryFormat ⟨'.', FieldOrder.dmy⟩ s = none := hj 1 (by omega)
      have e2 : tryFormat ⟨'/', FieldOrder.ymd⟩ s = none := hj 2 (by omega)
      have hr' : tryFormat ⟨'-', FieldOrder.dmy⟩ s = some r := hr
      simp only [parseDatePortion, _DATE_FORMATS, List.findSome?_cons, e0, e1, e2, hr']
    · have e0 : tryFormat ⟨'-', FieldOrder.ymd⟩ s = none := hj 0 (by omega)
      have e1 : tryFormat ⟨'.', FieldOrder.dmy⟩ s = none := hj 1 (by omega)
      have e2 : tryFormat ⟨'/', FieldOrder.ymd⟩ s = none := hj 2 (by omega)
      have e3 : tryFormat ⟨'-', FieldOrder.dmy⟩ s = none := hj 3 (by omega)
      have hr' : tryFormat ⟨'-', FieldOrder.mdy⟩ s = some r := hr
      simp only [parseDatePortion, _DATE_FORMATS, List.findSome?_cons, e0, e1, e2, e3, hr']
    · have e0 : tryFormat ⟨'-', FieldOrder.ymd⟩ s = none := hj 0 (by omega)
      have e1 : tryFormat ⟨'.', FieldOrder.dmy⟩ s = none := hj 1 (by omega)
      have e2 : tryFormat ⟨'/', FieldOrder.ymd⟩ s = none := hj 2 (by omega)
      have e3 : tryFormat ⟨'-', FieldOrder.dmy⟩ s = none := hj 3 (by omega)
      have e4 : tryFormat ⟨'-', FieldOrder.mdy⟩ s = none := hj 4 (by omega)
      have hr' : tryFormat ⟨'.', FieldOrder.ymd⟩ s = some r := hr
      simp only [parseDatePortion, _DATE_FORMATS, List.findSome?_cons, e0, e1, e2, e3, e4,
        hr']
    · have e0 : tryFormat ⟨'-', FieldOrder.ymd⟩ s = none := hj 0 (by omega)
      have e1 : tryFormat ⟨'.', FieldOrder.dmy⟩ s = none := hj 1 (by omega)
      have e2 : tryFormat ⟨'/', FieldOrder.ymd⟩ s = none := hj 2 (by omega)
      have e3 : tryFormat ⟨'-', FieldOrder.dmy⟩ s = none := hj 3 (by omega)
      have e4 : tryFormat ⟨'-', FieldOrder.mdy⟩ s = none := hj 4 (by omega)
      have e5 : tryFormat ⟨'.', FieldOrder.ymd⟩ s = none := hj 5 (by omega)
      have hr' : tryFormat ⟨'/', FieldOrder.mdy⟩ s = some r := hr
      simp only [parseDatePortion, _DATE_FORMATS, List.findSome?_cons, e0, e1, e2, e3, e4,
        e5, hr']
  · intro da mb y4 hdaD hdaL hda1 hda12 hmbD hmbL hmb1 hmb12 hy4D hy4L hy41 hval
    set s : Str := da ++ '-' :: (mb ++ '-' :: y4) with hs
    have hdigit : ∀ c ∈ s, c.isDigit = true ∨ c = '-' := by
      intro c hc
      rw [hs] at hc
      rcases List.mem_append.mp hc with h | h
      · exact Or.inl (by simpa using List.all_eq_true.mp hdaD c (by simpa using h))
      · rcases List.mem_cons.mp h with rfl | h
        · exact Or.inr rfl
        · rcases List.mem_append.mp h with h | h
          · exact Or.inl (by simpa using List.all_eq_true.mp hmbD c (by simpa using h))
          · rcases List.mem_cons.mp h with rfl | h
            · exact Or.inr rfl
            · exact Or.inl (by simpa using List.all_eq_true.mp hy4D c (by simpa using h))
    have hnws : ∀ c ∈ s, isPyWs c = false := by
      intro c hc
      rcases hdigit c hc with h | rfl
      · exact isDigit_not_pyWs h
      · decide
    have hstrip : pyStrip s = s := pyStrip_eq_self hnws
    have hnospace : s.contains ' ' = false := by
      apply contains_eq_false
      intro hmem
      rcases hdigit ' ' hmem with h | h
      · exact absurd h (by decide)
      · exact absurd h (by decide)
    have hdash : ∀ {t : Str}, allDigits t = true → '-' ∉ t := by
      intro t ht hmem
      have := List.all_eq_true.mp ht '-' (by simpa using hmem)
      simp at this
    have hsplit : splitOnChar '-' s = [da, mb, y4] := by
      rw [hs, splitOnChar_append (hdash hdaD), splitOnChar_append (hdash hmbD),
        splitOnChar_of_not_mem (hdash hy4D)]
    have hdot : '.' ∉ s := by
      intro hmem
      rcases hdigit '.' hmem with h | h
      · exact absurd h (by decide)
      · exact absurd h (by decide)
    have hslash : '/' ∉ s := by
      intro hmem
      rcases hdigit '/' hmem with h | h
      · exact absurd h (by decide)
      · exact absurd h (by decide)
    have hf0 : tryFormat ⟨'-', FieldOrder.ymd⟩ s = none := by
      unfold tryFormat
      rw [hsplit]
      have hy : fieldYear da = none := by
        unfold fieldYear
        rw [if_neg]
        rintro ⟨-, h4, -⟩
        omega
      simp [hy]
    have hf1 : tryFormat ⟨'.', FieldOrder.dmy⟩ s = none := by
      unfold tryFormat
      rw [splitOnChar_of_not_mem hdot]
    have hf2 : tryFormat ⟨'/', FieldOrder.ymd⟩ s = none := by
      unfold tryFormat
      rw [splitOnChar_of_not_mem hslash]
    have hf3 : tryFormat ⟨'-', FieldOrder.dmy⟩ s =
        some (natVal y4, natVal mb, natVal da) := by
      unfold tryFormat
      rw [hsplit]
      have hd : fieldDay da = some (natVal da) := by
        unfold fieldDay
        rw [if_pos ⟨hdaD, hdaL, hda1, by omega⟩]
      have hm : fieldMonth mb = some (natVal mb) := by
        unfold fieldMonth
        rw [if_pos ⟨hmbD, hmbL, hmb1, hmb12⟩]
      have hy : fieldYear y4 = some (natVal y4) := by
        unfold fieldYear
        rw [if_pos ⟨hy4D, hy4L, hy41⟩]
      simp only [hd, hm, hy, Option.bind_some, Option.pure_def]
      simp [hval]
    have hport : parseDatePortion s = some (natVal y4, natVal mb, natVal da) := by
      simp only [parseDatePortion, _DATE_FORMATS, List.findSome?_cons, hf0, hf1, hf2, hf3]
    simp only [_parse_date_any, hstrip, hnospace, Bool.false_eq_true, if_false, hport]

/-- C5 witness: the day-first clause applied to the ambiguous concrete date
`"03-04-1925"`, and the first-match clause applied to `"04.03.1925"`
(format index 1 succeeds, index 0 fails). -/
theorem c5_witness :
    _parse_date_any ("03".data ++ '-' :: ("04".data ++ '-' :: "1925".data)) =
      Except.ok (some ⟨natVal "1925".data, natVal "04".data, natVal "03".data, 0, 0⟩) ∧
    parseDatePortion "04.03.1925".data = some (1925, 3, 4) :=
  ⟨c5_parse_date_any_format_order.2.2.2.2.2 "03".data "04".data "1925".data
      (by decide) (by decide) (by decide) (by decide) (by decide) (by decide)
      (by decide) (by decide) (by decide) (by decide) (by decide) (by decide),
   c5_parse_date_any_format_order.2.2.2.2.1 "04.03.1925".data 1 (1925, 3, 4)
      (by decide) (by rfl) (fun j hj => by interval_cases j; rfl)⟩

/-! ## Claims C4 and C9: the header scan -/

theorem headerScan_cons (st : Option Str) (line : Str) (rest : List Str) :
    headerScan st (line :: rest) =
      if ¬ (isPrefixB "#".data line) then (st, none)
      else
        let station' :=
          if containsSubstr line "station_name=".data then some (stationVal line)
          else st
        if isPrefixB "# fields=".data line then (station', some (pyStrip line))
        else headerScan station' rest := rfl

/-- The scan finds no `fields=` line exactly when no leading comment line
starts with `# fields=`. -/
theorem headerScan_none_iff (l : List Str) : ∀ st : Option Str,
    ((headerScan st l).2 = none ↔
      ∀ x ∈ l.takeWhile (fun s => isPrefixB "#".data s),
        isPrefixB "# fields=".data x = false) := by
  induction l with
  | nil => intro st; simp [headerScan]
  | cons line rest ih =>
    intro st
    rw [headerScan_cons]
    by_cases hc : isPrefixB "#".data line = true
    · rw [if_neg (show ¬¬ (isPrefixB "#".data line = true) from fun h => h hc)]
      by_cases hf : isPrefixB "# fields=".data line = true
      · rw [if_pos hf]
        simp [List.takeWhile_cons, hc, hf]
      · rw [if_neg hf]
        simp only [List.takeWhile_cons, hc, if_true]
        constructor
        · intro h x hx
          rcases List.mem_cons.mp hx with rfl | hx
          · simpa using hf
          · exact ((ih _).mp h) x hx
        · intro h
          exact (ih _).mpr (fun x hx => h x (List.mem_cons_of_mem _ hx))
    · rw [if_pos (fun h => hc h)]
      simp [List.takeWhile_cons, hc]

/-- Nothing after the first `# fields=` line influences the scan. -/
theorem headerScan_indep (pre : List Str) (fl : Str) (rest rest' : List Str)
    (hpre : ∀ l ∈ pre, isPrefixB "#".data l = true)
    (hfl : isPrefixB "# fields=".data fl = true) : ∀ st : Option Str,
    headerScan st (pre ++ fl :: rest) = headerScan st (pre ++ fl :: rest') := by
  have hfl1 : isPrefixB "#".data fl = true := by
    cases fl with
    | nil => cases hfl
    | cons a t =>
      simp only [isPrefixB, Bool.and_eq_true, beq_iff_eq] at hfl ⊢
      exact ⟨hfl.1, trivial⟩
  induction pre with
  | nil =>
    intro st
    simp only [List.nil_append]
    rw [headerScan_cons, headerScan_cons]
    rw [if_neg (show ¬¬ (isPrefixB "#".data fl = true) from fun h => h hfl1),
      if_neg (show ¬¬ (isPrefixB "#".data fl = true) from fun h => h hfl1)]
    simp only [if_pos hfl]
  | cons p pre' ih =>
    intro st
    have hp : isPrefixB "#".data p = true := hpre p (List.mem_cons_self p pre')
    have ih' := ih (fun l hl => hpre l (List.mem_cons_of_mem p hl))
    simp only [List.cons_append]
    rw [headerScan_cons, headerScan_cons]
    rw [if_neg (show ¬¬ (isPrefixB "#".data p = true) from fun h => h hp),
      if_neg (show ¬¬ (isPrefixB "#".data p = true) from fun h => h hp)]
    by_cases hpf : isPrefixB "# fields=".data p = true
    · simp only [if_pos hpf]
    · simp only [if_neg hpf]
      exact ih' _

/-- The station name captured by the scan is the value of the last
`station_name=` directive among the scanned lines, if any. -/
theorem headerScan_station (l : List Str) : ∀ st : Option Str,
    (headerScan st l).1 =
      match ((headerScannedLines l).filter
          (fun x => containsSubstr x "station_name=".data)).getLast? with
      | none => st
      | some x => some (stationVal x) := by
  induction l with
  | nil => intro st; simp [headerScan, headerScannedLines]
  | cons line rest ih =>
    intro st
    rw [headerScan_cons]
    by_cases hc : isPrefixB "#".data line = true
    · rw [if_neg (show ¬¬ (isPrefixB "#".data line = true) from fun h => h hc)]
      by_cases hf : isPrefixB "# fields=".data line = true
      · rw [if_pos hf]
        have hsl : headerScannedLines (line :: rest) = [line] := by
          conv_lhs => unfold headerScannedLines
          rw [if_neg (show ¬¬ (isPrefixB "#".data line = true) from fun h => h hc),
            if_pos hf]
        rw [hsl, List.filter_cons]
        by_cases hd : containsSubstr line "station_name=".data = true
        · rw [if_pos hd, if_pos hd]
          rfl
        · rw [if_neg hd, if_neg hd]
          rfl
      · rw [if_neg hf]
        have hsl : headerScannedLines (line :: rest) =
            line :: headerScannedLines rest := by
          conv_lhs => unfold headerScannedLines
          rw [if_neg (show ¬¬ (isPrefixB "#".data line = true) from fun h => h hc),
            if_neg hf]
        rw [hsl, List.filter_cons]
        by_cases hd : containsSubstr line "station_name=".data = true
        · rw [if_pos hd, if_pos hd, ih (some (stationVal line))]
          cases hF : (headerScannedLines rest).filter
              (fun x => containsSubstr x "station_name=".data) with
          | nil => rfl
          | cons z zs =>
            rw [List.getLast?_cons_cons]
            cases hz : (z :: zs).getLast? with
            | none => exact absurd (List.getLast?_eq_none_iff.mp hz) (by simp)
            | some w => rfl
        · rw [if_neg hd, if_neg hd]
          exact ih st
    · rw [if_pos (fun h => hc h)]
      have hsl : headerScannedLines (line :: rest) = [] := by
        conv_lhs => unfold headerScannedLines
        rw [if_pos (fun h => hc h)]
      rw [hsl]
      rfl

/-- C4: loading a file fails — with the error message naming the file — if
and only if no line starting with `# fields=` occurs among the file's
leading comment lines; when such a line exists, header reading succeeds and
consults no line after the first `# fields=` line. -/
theorem c4_read_header_iff_fields_line (f : SourceFile) :
    ((∃ st sep cols, _read_header f = Except.ok (st, sep, cols)) ↔
      ∃ l ∈ f.lines.takeWhile (fun s => isPrefixB "#".data s),
        isPrefixB "# fields=".data l = true) ∧
    ((¬ ∃ l ∈ f.lines.takeWhile (fun s => isPrefixB "#".data s),
        isPrefixB "# fields=".data l = true) →
      _read_header f = Except.error ("Missing '# fields=' header in ".data ++ f.path)) ∧
    (∀ (p st : Str) (pre : List Str) (fl : Str) (rest rest' : List Str),
      (∀ l ∈ pre, isPrefixB "#".data l = true) →
      isPrefixB "# fields=".data fl = true →
      _read_header ⟨p, st, pre ++ fl :: rest⟩ = _read_header ⟨p, st, pre ++ fl :: rest'⟩) := by
  have hiff := headerScan_none_iff f.lines none
  have hexists : (¬ ∃ l ∈ f.lines.takeWhile (fun s => isPrefixB "#".data s),
      isPrefixB "# fields=".data l = true) ↔
      ∀ x ∈ f.lines.takeWhile (fun s => isPrefixB "#".data s),
        isPrefixB "# fields=".data x = false := by
    push_neg
    constructor
    · intro h x hx
      exact Bool.not_eq_true _ ▸ h x hx
    · intro h x hx
      rw [h x hx]
      decide
  refine ⟨?_, ?_, ?_⟩
  · constructor
    · rintro ⟨st, sep, cols, hok⟩
      by_contra hno
      have hnone := hiff.mpr (hexists.mp hno)
      unfold _read_header at hok
      rcases hscan : headerScan none f.lines with ⟨sn, fo⟩
      rw [hscan] at hok hnone
      cases fo with
      | none => cases hok
      | some fl => cases hnone
    · intro hex
      rcases hscan : headerScan none f.lines with ⟨sn, fo⟩
      cases fo with
      | none =>
        exfalso
        have := hiff.mp (by rw [hscan])
        rcases hex with ⟨l, hl, htrue⟩
        rw [this l hl] at htrue
        cases htrue
      | some fl =>
        cases sn with
        | none =>
          have hok : _read_header f = Except.ok
              (f.stem, _detect_separator fl,
               (splitOnChar (_detect_separator fl)
                 ((splitFirst "fields=".data fl).2.getD [])).map pyStrip) := by
            unfold _read_header
            rw [hscan]
          exact ⟨_, _, _, hok⟩
        | some sv =>
          have hok : _read_header f = Except.ok
              ((if sv.isEmpty then f.stem else sv), _detect_separator fl,
               (splitOnChar (_detect_separator fl)
                 ((splitFirst "fields=".data fl).2.getD [])).map pyStrip) := by
            unfold _read_header
            rw [hscan]
          exact ⟨_, _, _, hok⟩
  · intro hno
    have hnone := hiff.mpr (hexists.mp hno)
    rcases hscan : headerScan none f.lines with ⟨sn, fo⟩
    rw [hscan] at hnone
    cases fo with
    | none =>
      unfold _read_header
      rw [hscan]
    | some fl => cases hnone
  · intro p st pre fl rest rest' hpre hfl
    unfold _read_header
    rw [show (⟨p, st, pre ++ fl :: rest⟩ : SourceFile).lines = pre ++ fl :: rest from rfl,
      show (⟨p, st, pre ++ fl :: rest'⟩ : SourceFile).lines = pre ++ fl :: rest' from rfl,
      headerScan_indep pre fl rest rest' hpre hfl none]

/-- C4 witness: a file whose only comment line is not a `fields=` line
fails with the error naming the file, and adding a `# fields=` line first
makes the header read succeed independently of the data lines. -/
theorem c4_witness :
    _read_header ⟨"data/x.txt".data, "x".data, ["# hello".data, "1925".data]⟩ =
      Except.error ("Missing '# fields=' header in ".data ++ "data/x.txt".data) ∧
    _read_header ⟨"data/x.txt".data, "x".data,
        ["# hello".data] ++ "# fields=date".data :: ["1".data]⟩ =
      _read_header ⟨"data/x.txt".data, "x".data,
        ["# hello".data] ++ "# fields=date".data :: ["2".data, "3".data]⟩ :=
  ⟨(c4_read_header_iff_fields_line
      ⟨"data/x.txt".data, "x".data, ["# hello".data, "1925".data]⟩).2.1 (by decide),
   (c4_read_header_iff_fields_line
      ⟨"data/x.txt".data, "x".data, ["# hello".data]⟩).2.2 "data/x.txt".data "x".data
      ["# hello".data] "# fields=date".data ["1".data] ["2".data, "3".data]
      (by decide) (by decide)⟩

/-- C9 counterexample: the claim says the station label equals the declared
value whenever a `station_name=` directive appears among the scanned header
lines, and equals the file stem exactly when no directive is present.  A
file whose directive declares the empty value refutes both parts: the
directive is present, its value is empty, and the loader falls back to the
stem (`station_name or path.stem` treats the empty string as false). -/
theorem c9_counterexample_empty_station_value :
    ¬ (∀ (f : SourceFile) (st : Str) (sep : Char) (cols : List Str) (l : Str),
        _read_header f = Except.ok (st, sep, cols) →
        l ∈ headerScannedLines f.lines →
        containsSubstr l "station_name=".data = true →
        st = stationVal l) := by
  intro h
  have := h ⟨"d/riga.txt".data, "riga".data,
      ["# station_name=".data, "# fields=date".data]⟩
    "riga".data ',' ["date".data] "# station_name=".data
    (by rfl) (by decide) (by decide)
  exact absurd this (by decide)

/-- C9 amended: for every file whose header reads successfully, the station
label equals the value captured from the last scanned header line
containing a `station_name=` directive when that value is non-empty, and
the file's base name without extension otherwise (no directive present, or
the last captured value empty). -/
theorem c9_amended_station_label (f : SourceFile) (st : Str) (sep : Char)
    (cols : List Str) (h : _read_header f = Except.ok (st, sep, cols)) :
    st = (match ((headerScannedLines f.lines).filter
            (fun x => containsSubstr x "station_name=".data)).getLast? with
          | none => f.stem
          | some x => if (stationVal x).isEmpty then f.stem else stationVal x) := by
  have hstation := headerScan_station f.lines none
  unfold _read_header at h
  rcases hscan : headerScan none f.lines with ⟨sn, fo⟩
  rw [hscan] at h hstation
  cases fo with
  | none => cases h
  | some fl =>
    simp only at h hstation
    have htup := Except.ok.inj h
    injection htup with h1 h2
    cases hlast : ((headerScannedLines f.lines).filter
        (fun x => containsSubstr x "station_name=".data)).getLast? with
    | none =>
      rw [hlast] at hstation
      simp only at hstation
      rw [← h1, hstation]
    | some x =>
      rw [hlast] at hstation
      simp only at hstation
      rw [← h1, hstation]

/-- C9 amended, witness: with two directives the later one wins, and with a
single empty-valued directive the stem wins. -/
theorem c9_witness :
    "Liepaja".data = (match ((headerScannedLines
        ["# station_name=Riga".data, "# station_name=Liepaja".data,
         "# fields=date".data]).filter
          (fun x => containsSubstr x "station_name=".data)).getLast? with
        | none => "f9".data
        | some x => if (stationVal x).isEmpty then "f9".data else stationVal x) :=
  c9_amended_station_label
    ⟨"d/f9.txt".data, "f9".data,
      ["# station_name=Riga".data, "# station_name=Liepaja".data,
       "# fields=date".data]⟩
    "Liepaja".data ',' ["date".data] (by rfl)

/-! ## Claim C2 -/

/-- C2: the claim says `load_one` returns the ten canonical columns for
every file whose header reads, with absent canonical columns filled with
missing values and, in particular, no error for files that declare no
`present_weather_code` or no `date` column.  The code violates this for
files without a `present_weather_code` column: `df.get` returns `None`,
`pd.to_numeric(None, errors="coerce")` returns the scalar
`numpy.float64('nan')`, and the numpy scalar's `.astype("Int64")` raises
`TypeError: data type 'Int64' not understood` (only pandas objects accept
the nullable dtype string).  This theorem evaluates the model at such a
file, and also shows that when `present_weather_code` is declared the
ten-column invariant does hold, including for a file with no `date`
column. -/
theorem c2_load_one_columns_and_missing_pwc_error :
    load_one ⟨"d/nopwc.txt".data, "nopwc".data,
        ["# fields=date".data, "1925-03-04".data]⟩ =
      Except.error "TypeError: data type 'Int64' not understood".data ∧
    (load_one ⟨"d/f2.txt".data, "f2".data,
        ["# fields=date|present_weather_code".data, "1925-03-04|3".data]⟩).map
        (fun t => t.map Prod.fst) = Except.ok KEEP_COLS ∧
    (load_one ⟨"d/f2.txt".data, "f2".data,
        ["# fields=date|present_weather_code".data, "1925-03-04|3".data]⟩).map
        (fun t => (getCol t "t_max_c".data, getCol t "notes".data)) =
      Except.ok (some [Cell.na], some [Cell.na]) ∧
    (load_one ⟨"d/f3.txt".data, "f3".data,
        ["# fields=t_max_c|present_weather_code".data, "3|4".data]⟩).map
        (fun t => (t.map Prod.fst, getCol t "timestamp".data,
          getCol t "date".data, getCol t "time".data)) =
      Except.ok (KEEP_COLS, some [Cell.na], some [Cell.na], some [Cell.na]) := by
  exact ⟨by rfl, by rfl, by rfl, by rfl⟩

/-! ## Claim C3: the merge

Order lemmas for the `(station, timestamp)` sort key. -/

theorem natLexLt_irrefl (l : List Nat) : natLexLt l l = false := by
  induction l with
  | nil => rfl
  | cons a as ih =>
    unfold natLexLt
    rw [if_neg (lt_irrefl a), if_neg (lt_irrefl a)]
    exact ih

theorem natLexLt_trans {a b c : List Nat} (h1 : natLexLt a b = true)
    (h2 : natLexLt b c = true) : natLexLt a c = true := by
  induction a generalizing b c with
  | nil =>
    cases c with
    | nil =>
      cases b with
      | nil => exact h1
      | cons y ys => simp [natLexLt] at h2
    | cons z zs => rfl
  | cons x xs ih =>
    cases b with
    | nil => simp [natLexLt] at h1
    | cons y ys =>
      cases c with
      | nil => simp [natLexLt] at h2
      | cons z zs =>
        unfold natLexLt at h1 h2 ⊢
        by_cases hxy : x < y
        · rw [if_pos hxy] at h1
          by_cases hyz : y < z
          · rw [if_pos (show x < z by omega)]
          · rw [if_neg hyz] at h2
            by_cases hzy : z < y
            · rw [if_pos hzy] at h2; cases h2
            · rw [if_pos (show x < z by omega)]
        · rw [if_neg hxy] at h1
          by_cases hyx : y < x
          · rw [if_pos hyx] at h1; cases h1
          · rw [if_neg hyx] at h1
            by_cases hyz : y < z
            · rw [if_pos (show x < z by omega)]
            · rw [if_neg hyz] at h2
              by_cases hzy : z < y
              · rw [if_pos hzy] at h2; cases h2
              · rw [if_neg hzy] at h2
                rw [if_neg (show ¬ x < z by omega), if_neg (show ¬ z < x by omega)]
                exact ih h1 h2

theorem natLexLt_eq_of_not {a b : List Nat} (h1 : natLexLt a b = false)
    (h2 : natLexLt b a = false) : a = b := by
  induction a generalizing b with
  | nil =>
    cases b with
    | nil => rfl
    | cons y ys => simp [natLexLt] at h1
  | cons x xs ih =>
    cases b with
    | nil => simp [natLexLt] at h2
    | cons y ys =>
      unfold natLexLt at h1 h2
      by_cases hxy : x < y
      · rw [if_pos hxy] at h1; cases h1
      · by_cases hyx : y < x
        · rw [if_pos hyx] at h2; cases h2
        · rw [if_neg hxy, if_neg hyx] at h1
          rw [if_neg hyx, if_neg hxy] at h2
          have hx : x = y := by omega
          rw [hx, ih h1 h2]

theorem natLexLt_asymm {a b : List Nat} (h : natLexLt a b = true) :
    natLexLt b a = false := by
  cases hv : natLexLt b a with
  | false => rfl
  | true =>
    have := natLexLt_trans h hv
    rw [natLexLt_irrefl] at this
    cases this

theorem bool_eq_false {b : Bool} (h : ¬ b = true) : b = false := by
  cases b with
  | false => rfl
  | true => exact absurd rfl h

theorem charToNat_inj : Function.Injective Char.toNat := fun _ _ h =>
  Char.eq_of_val_eq (UInt32.ext h)

theorem strLtB_eq_of_not {a b : Str} (h1 : strLtB a b = false)
    (h2 : strLtB b a = false) : a = b :=
  List.map_injective_iff.mpr charToNat_inj (natLexLt_eq_of_not h1 h2)

theorem tsComponents_inj {a b : Timestamp} (h : tsComponents a = tsComponents b) :
    a = b := by
  cases a; cases b
  simp only [tsComponents, List.cons.injEq, and_true] at h
  obtain ⟨h1, h2, h3, h4, h5⟩ := h
  simp_all

theorem tsLtB_eq_of_not {a b : Timestamp} (h1 : tsLtB a b = false)
    (h2 : tsLtB b a = false) : a = b :=
  tsComponents_inj (natLexLt_eq_of_not h1 h2)

theorem keyLtB_irrefl (k : Str × Timestamp) : keyLtB k k = false := by
  unfold keyLtB
  rw [show strLtB k.1 k.1 = false from natLexLt_irrefl _,
    show tsLtB k.2 k.2 = false from natLexLt_irrefl _]
  simp

theorem keyLtB_trans {k1 k2 k3 : Str × Timestamp} (h1 : keyLtB k1 k2 = true)
    (h2 : keyLtB k2 k3 = true) : keyLtB k1 k3 = true := by
  unfold keyLtB at h1 h2 ⊢
  rw [Bool.or_eq_true, Bool.and_eq_true] at h1 h2 ⊢
  rcases h1 with hs1 | ⟨heq1, ht1⟩
  · rcases h2 with hs2 | ⟨heq2, ht2⟩
    · exact Or.inl (natLexLt_trans hs1 hs2)
    · have heq2' : k2.1 = k3.1 := of_decide_eq_true heq2
      exact Or.inl (heq2' ▸ hs1)
  · have heq1' : k1.1 = k2.1 := of_decide_eq_true heq1
    rcases h2 with hs2 | ⟨heq2, ht2⟩
    · exact Or.inl (heq1' ▸ hs2)
    · have heq2' : k2.1 = k3.1 := of_decide_eq_true heq2
      exact Or.inr ⟨decide_eq_true (heq1'.trans heq2'), natLexLt_trans ht1 ht2⟩

theorem keyLtB_trichotomy (k1 k2 : Str × Timestamp) :
    keyLtB k1 k2 = true ∨ k1 = k2 ∨ keyLtB k2 k1 = true := by
  by_cases hs : strLtB k1.1 k2.1 = true
  · left
    unfold keyLtB
    rw [hs]
    rfl
  · by_cases hs' : strLtB k2.1 k1.1 = true
    · right; right
      unfold keyLtB
      rw [hs']
      rfl
    · have hseq : k1.1 = k2.1 := strLtB_eq_of_not (bool_eq_false hs) (bool_eq_false hs')
      by_cases ht : tsLtB k1.2 k2.2 = true
      · left
        unfold keyLtB
        rw [ht, decide_eq_true hseq]
        simp
      · by_cases ht' : tsLtB k2.2 k1.2 = true
        · right; right
          unfold keyLtB
          rw [ht', decide_eq_true hseq.symm]
          simp
        · right; left
          have hteq : k1.2 = k2.2 :=
            tsLtB_eq_of_not (bool_eq_false ht) (bool_eq_false ht')
          exact Prod.ext hseq hteq

theorem keyLtB_asymm {k1 k2 : Str × Timestamp} (h : keyLtB k1 k2 = true) :
    keyLtB k2 k1 = false := by
  cases hv : keyLtB k2 k1 with
  | false => rfl
  | true =>
    have := keyLtB_trans h hv
    rw [keyLtB_irrefl] at this
    cases this

theorem rowLe_trans (a b c : Row) (h1 : rowLe a b) (h2 : rowLe b c) : rowLe a c := by
  simp only [rowLe, Bool.not_eq_true'] at h1 h2 ⊢
  cases hv : keyLtB (rowKey c) (rowKey a) with
  | false => rfl
  | true =>
    rcases keyLtB_trichotomy (rowKey c) (rowKey b) with hlt | heq | hgt
    · rw [h2] at hlt; cases hlt
    · rw [heq] at hv
      rw [hv] at h1
      cases h1
    · have := keyLtB_trans hgt hv
      rw [h1] at this
      cases this

theorem rowLe_total (a b : Row) : rowLe a b || rowLe b a := by
  simp only [rowLe, Bool.not_eq_true']
  cases hv : keyLtB (rowKey b) (rowKey a) with
  | false => simp
  | true => simp [keyLtB_asymm hv]

theorem rowLe_of_key_eq {a b : Row} (h : rowKey a = rowKey b) : rowLe a b = true := by
  unfold rowLe
  rw [← h, keyLtB_irrefl]
  rfl

theorem pairwise_of_mem {α : Type} {R : α → α → Prop} :
    ∀ {l : List α}, (∀ a ∈ l, ∀ b ∈ l, R a b) → l.Pairwise R
  | [], _ => List.Pairwise.nil
  | x :: xs, h =>
    List.Pairwise.cons
      (fun b hb => h x (List.mem_cons_self x xs) b (List.mem_cons_of_mem x hb))
      (pairwise_of_mem (fun a ha b hb =>
        h a (List.mem_cons_of_mem x ha) b (List.mem_cons_of_mem x hb)))

/-- Stability of the modelled sort: the rows with any fixed
`(station, timestamp)` key come out in exactly the order they went in. -/
theorem mergeSort_filter_key (l : List Row) (k : Str × Timestamp) :
    (l.mergeSort rowLe).filter (fun r => decide (rowKey r = k)) =
      l.filter (fun r => decide (rowKey r = k)) := by
  have hA : (l.filter (fun r => decide (rowKey r = k))).Pairwise
      (fun a b => rowLe a b) := by
    apply pairwise_of_mem
    intro a ha b hb
    have hka : rowKey a = k := of_decide_eq_true (List.mem_filter.mp ha).2
    have hkb : rowKey b = k := of_decide_eq_true (List.mem_filter.mp hb).2
    exact rowLe_of_key_eq (hka.trans hkb.symm)
  have h1 : List.Sublist (l.filter (fun r => decide (rowKey r = k)))
      (l.mergeSort rowLe) :=
    List.sublist_mergeSort rowLe_trans rowLe_total hA (List.filter_sublist l)
  have h2 := h1.filter (fun r => decide (rowKey r = k))
  rw [List.filter_eq_self.mpr
    (fun a ha => (List.mem_filter.mp ha).2)] at h2
  have hperm : List.Perm
      ((l.mergeSort rowLe).filter (fun r => decide (rowKey r = k)))
      (l.filter (fun r => decide (rowKey r = k))) :=
    (List.mergeSort_perm l rowLe).filter _
  exact (h2.eq_of_length hperm.length_eq.symm).symm

/-- C3: whenever `load_all` succeeds on a list of files whose per-file
loads produced `frames`, the returned corpus is a permutation of exactly
those rows of the concatenated per-file tables whose timestamp is present;
it is sorted non-decreasingly by the `(station, timestamp)` key; and for
every key value the rows carrying it appear in exactly the order the files
contributed them (no deduplication, stable ties). -/
theorem c3_load_all_filter_sort_stable (files : List SourceFile)
    (frames : List Table) (hframes : files.mapM load_one = Except.ok frames)
    (hne : frames ≠ []) :
    ∃ corpus, load_all files = Except.ok corpus ∧
      corpus.Perm (((frames.map tableRows).flatten).filter rowHasTs) ∧
      corpus.Pairwise (fun a b => keyLtB (rowKey b) (rowKey a) = false) ∧
      (∀ k : Str × Timestamp,
        corpus.filter (fun r => decide (rowKey r = k)) =
          (((frames.map tableRows).flatten).filter rowHasTs).filter
            (fun r => decide (rowKey r = k))) := by
  have hLA : load_all files = Except.ok
      ((((frames.map tableRows).flatten).filter rowHasTs).mergeSort rowLe) := by
    unfold load_all
    rw [hframes]
    cases frames with
    | nil => exact absurd rfl hne
    | cons t ts => rfl
  refine ⟨_, hLA, List.mergeSort_perm _ rowLe, ?_, fun k => mergeSort_filter_key _ k⟩
  have hs := List.sorted_mergeSort rowLe_trans rowLe_total
    (((frames.map tableRows).flatten).filter rowHasTs)
  exact hs.imp (fun hab => by simpa [rowLe, Bool.not_eq_true'] using hab)

/-- C3 witness: one concrete file, loading to one concrete frame. -/
theorem c3_witness :
    ∃ corpus,
      load_all [⟨"w.txt".data, "w".data,
        ["# fields=date|present_weather_code".data, "1925-03-04|7".data]⟩] =
        Except.ok corpus ∧
      corpus.Perm ((([wFrame].map tableRows).flatten).filter rowHasTs) ∧
      corpus.Pairwise (fun a b => keyLtB (rowKey b) (rowKey a) = false) ∧
      (∀ k : Str × Timestamp,
        corpus.filter (fun r => decide (rowKey r = k)) =
          ((([wFrame].map tableRows).flatten).filter rowHasTs).filter
            (fun r => decide (rowKey r = k))) :=
  c3_load_all_filter_sort_stable
    [⟨"w.txt".data, "w".data,
      ["# fields=date|present_weather_code".data, "1925-03-04|7".data]⟩]
    [wFrame] (by rfl) (by decide)

end Loader
